import Mathlib

/-
Shallow embedding of src/server.js, a faculty review REST API backed by a
spreadsheet.  Spreadsheet cells arrive as strings; an absent cell (a ragged
row read past its end) is `none`.  The source file contains two variants of
the server; where they differ, the earlier variant keeps the source name and
the later variant carries a `V2` suffix.  Remote reads are modelled by an
environment value holding the response of each sheet (`Except Unit` for a
failed read), and the number of remote read requests issued is returned
explicitly.  Rational numbers stand for the JavaScript numbers that arise
from parsing finite decimal numerals; a JavaScript NaN is `Option.none`.
-/

namespace ReviewSite

/-! ## JavaScript string primitives -/

/-- JS `String.prototype.toLowerCase`, for the ASCII range used by the data. -/
def jsToLower (s : String) : String := ⟨s.data.map Char.toLower⟩

/-- Strip leading and trailing whitespace from a character list. -/
def trimChars (cs : List Char) : List Char :=
  ((cs.dropWhile Char.isWhitespace).reverse.dropWhile Char.isWhitespace).reverse

/-- JS `String.prototype.trim`. -/
def jsTrim (s : String) : String := ⟨trimChars s.data⟩

/-- Boolean prefix test on character lists. -/
def listPrefixOf : List Char → List Char → Bool
  | [], _ => true
  | _ :: _, [] => false
  | a :: as, b :: bs => a == b && listPrefixOf as bs

/-- Boolean contiguous-substring test: does the first list occur inside the second? -/
def listInfixOf : List Char → List Char → Bool
  | n, [] => listPrefixOf n []
  | n, c :: cs => listPrefixOf n (c :: cs) || listInfixOf n cs

/-- JS `hay.includes(needle)`. -/
def jsIncludes (hay needle : String) : Bool := listInfixOf needle.data hay.data

/-! ## JavaScript number parsing

`calculateAverage` in the source filters cells with `!isNaN(cell)` (which
coerces via `Number(_)`) but sums them with `parseFloat(cell)`.  The two
parsers are modelled separately because they genuinely disagree: `Number`
maps a whitespace-only string to `0` while `parseFloat` maps it to NaN.
Both models cover plain decimal numerals (optional sign, digits, optional
fraction); exponent, hexadecimal and Infinity forms do not occur in the data
and are out of scope.  `none` stands for NaN. -/

/-- Value of a digit string. -/
def digitsToNat (ds : List Char) : Nat := ds.foldl (fun n c => 10 * n + (c.toNat - 48)) 0

/-- Parse an unsigned decimal numeral prefix; returns its value and the unconsumed rest. -/
def parseUnsigned (cs : List Char) : Option (ℚ × List Char) :=
  let ip := cs.takeWhile Char.isDigit
  let rest := cs.dropWhile Char.isDigit
  match rest with
  | '.' :: rest2 =>
      let fp := rest2.takeWhile Char.isDigit
      let rest3 := rest2.dropWhile Char.isDigit
      if ip.isEmpty && fp.isEmpty then none
      else some ((digitsToNat ip : ℚ) + (digitsToNat fp : ℚ) / (10 : ℚ) ^ fp.length, rest3)
  | _ => if ip.isEmpty then none else some ((digitsToNat ip : ℚ), rest)

/-- Parse an optionally signed decimal numeral prefix. -/
def parseSigned (cs : List Char) : Option (ℚ × List Char) :=
  match cs with
  | '-' :: rest => (parseUnsigned rest).map (fun p => (-p.1, p.2))
  | '+' :: rest => parseUnsigned rest
  | _ => parseUnsigned cs

/-- JS `parseFloat`: skip leading whitespace, read the longest numeral prefix,
ignore anything after it; NaN (`none`) if no numeral starts the string. -/
def jsParseFloat (s : String) : Option ℚ :=
  (parseSigned (s.data.dropWhile Char.isWhitespace)).map Prod.fst

/-- JS `Number(_)` coercion, as used by `isNaN`: trim both ends, the empty
string is `0`, otherwise the whole remainder must be one numeral. -/
def jsToNumber (s : String) : Option ℚ :=
  let cs := trimChars s.data
  if cs.isEmpty then some 0
  else
    match parseSigned cs with
    | some (q, []) => some q
    | _ => none

/-- JS `parseInt` applied to a number already validated to lie in a small
range: truncation toward zero of its decimal representation. -/
def jsParseInt (x : ℚ) : Int := if 0 ≤ x then ⌊x⌋ else -⌊-x⌋

/-- JS `+` on possibly-NaN numbers: NaN absorbs. -/
def jsAdd : Option ℚ → Option ℚ → Option ℚ
  | some a, some b => some (a + b)
  | _, _ => none

/-- JS `Number.prototype.toFixed(1)` on an exact rational: round to the
nearest tenth, ties toward the larger value. -/
def toFixed1 (x : ℚ) : ℚ := ((round (10 * x) : ℤ) : ℚ) / 10

/-- Truthiness of a spreadsheet cell: present and not the empty string. -/
def truthyCell : Option String → Bool
  | some s => s != ""
  | none => false

/-! ## Data model -/

/-- A roster record, as built by `getFacultyDataFromSheets`. -/
structure FacultyRecord where
  id : Nat
  name : String
  department : String
  subject : String
  mobile : String
deriving DecidableEq, Repr

/-- Outcome of `calculateAverage`: the number `0` when no valid entries
exist, the string `"NaN"` when `toFixed` is applied to NaN, or the decimal
string denoting `q` otherwise. -/
inductive AvgOut where
  | zero
  | nan
  | val (q : ℚ)
deriving DecidableEq, Repr

/-- The record returned by `getFacultyAverages` when at least one row matches. -/
structure FacultyAverages where
  teaching : AvgOut
  evaluation : AvgOut
  behaviour : AvgOut
  internals : AvgOut
  classAverage : AvgOut
  overall : AvgOut
  count : Nat
  latestReview : List String
deriving DecidableEq, Repr

/-! ## Aggregation engine (src/server.js lines 104-140 and 584-624) -/

/-- The cell filter of `calculateAverage`: `row[index] && !isNaN(row[index])`. -/
def validCell (c : Option String) : Bool :=
  truthyCell c && (jsToNumber (c.getD "")).isSome

/-- `calculateAverage(index)`: filter the matched rows to those whose cell at
`index` is truthy and Number-coercible, return `0` if none remain, otherwise
sum the cells with `parseFloat`, divide by the count and apply `toFixed(1)`. -/
def calculateAverage (facultyReviews : List (List String)) (index : Nat) : AvgOut :=
  let validReviews := facultyReviews.filter (fun row => validCell row[index]?)
  if validReviews.length = 0 then AvgOut.zero
  else
    match validReviews.foldl (fun acc row => jsAdd acc (jsParseFloat (row[index]?.getD ""))) (some 0) with
    | none => AvgOut.nan
    | some s => AvgOut.val (toFixed1 (s / (validReviews.length : ℚ)))

/-- Row match of the earlier `getFacultyAverages` variant (line 112):
`row[0] && row[0].toLowerCase().includes(facultyName.toLowerCase())`. -/
def matchesV1 (facultyName : String) (row : List String) : Bool :=
  truthyCell row[0]? && jsIncludes (jsToLower (row[0]?.getD "")) (jsToLower facultyName)

/-- Row match of the later `getFacultyAverages` variant (line 596):
`row[0] && row[0].toLowerCase().trim() === facultyName.toLowerCase().trim()`. -/
def matchesV2 (facultyName : String) (row : List String) : Bool :=
  truthyCell row[0]? && (jsTrim (jsToLower (row[0]?.getD "")) == jsTrim (jsToLower facultyName))

/-- The averages record built from an already-matched, nonempty row list. -/
def averagesOf (facultyReviews : List (List String)) : FacultyAverages :=
  { teaching := calculateAverage facultyReviews 1
    evaluation := calculateAverage facultyReviews 2
    behaviour := calculateAverage facultyReviews 3
    internals := calculateAverage facultyReviews 4
    classAverage := calculateAverage facultyReviews 5
    overall := calculateAverage facultyReviews 6
    count := facultyReviews.length
    latestReview := facultyReviews.headI }

/-- Earlier `getFacultyAverages` (lines 104-140), given the review rows the
remote read returned. -/
def getFacultyAverages (rows : List (List String)) (facultyName : String) :
    Option FacultyAverages :=
  let facultyReviews := rows.filter (matchesV1 facultyName)
  if facultyReviews.length = 0 then none else some (averagesOf facultyReviews)

/-- Later `getFacultyAverages` (lines 584-624). -/
def getFacultyAveragesV2 (rows : List (List String)) (facultyName : String) :
    Option FacultyAverages :=
  let facultyReviews := rows.filter (matchesV2 facultyName)
  if facultyReviews.length = 0 then none else some (averagesOf facultyReviews)

/-! ## Search (src/server.js lines 143-150 and 627-634) -/

/-- Earlier `searchFaculty`: the term is lower-cased but not trimmed. -/
def searchFaculty (facultyData : List FacultyRecord) (searchTerm : String) :
    List FacultyRecord :=
  let term := jsToLower searchTerm
  facultyData.filter (fun faculty =>
    jsIncludes (jsToLower faculty.name) term ||
    jsIncludes (jsToLower faculty.department) term ||
    jsIncludes (jsToLower faculty.subject) term)

/-- Later `searchFaculty`: the term is lower-cased and trimmed. -/
def searchFacultyV2 (facultyData : List FacultyRecord) (searchTerm : String) :
    List FacultyRecord :=
  let term := jsTrim (jsToLower searchTerm)
  facultyData.filter (fun faculty =>
    jsIncludes (jsToLower faculty.name) term ||
    jsIncludes (jsToLower faculty.department) term ||
    jsIncludes (jsToLower faculty.subject) term)

/-- Search predicate in the spec's words: the trimmed lower-cased term is a
substring of the lower-cased name, department, or subject field. -/
def specSearchMatches (term : String) (faculty : FacultyRecord) : Bool :=
  listInfixOf (jsTrim (jsToLower term)).data (jsToLower faculty.name).data ||
  listInfixOf (jsTrim (jsToLower term)).data (jsToLower faculty.department).data ||
  listInfixOf (jsTrim (jsToLower term)).data (jsToLower faculty.subject).data

/-- Matching policy in the spec's words for the earlier averages variant:
case-insensitive substring containment of the query inside the stored name
(a row with no stored name never matches). -/
def specSubstringMatch (query : String) (row : List String) : Bool :=
  match row[0]? with
  | some s => s != "" && listInfixOf (jsToLower query).data (jsToLower s).data
  | none => false

/-- Matching policy in the spec's words for the later averages variant:
exact case-insensitive, trimmed equality of the stored name and the query. -/
def specExactMatch (query : String) (row : List String) : Bool :=
  match row[0]? with
  | some s => s != "" && (jsTrim (jsToLower s) == jsTrim (jsToLower query))
  | none => false

/-! ## Faculty cache (src/server.js lines 31-101) -/

/-- The in-memory cache: `{ data: null, timestamp: 0 }` at process start. -/
structure CacheState where
  data : Option (List FacultyRecord)
  timestamp : Int
deriving DecidableEq, Repr

/-- `CONFIG.CACHE_DURATION`: five minutes in milliseconds. -/
def CACHE_DURATION : Int := 5 * 60 * 1000

/-- The two remote ranges a cache (re)population may read; `Except.error`
models a failed read (for instance, a sheet that does not exist). -/
structure SheetsEnv where
  facultySheet : Except Unit (List (List String))
  reviewsSheet : Except Unit (List (List String))

/-- One roster row mapped to a record: `{ id: index + 1, name: row[0] || '', ... }`. -/
def rowToFaculty (index : Nat) (row : List String) : FacultyRecord :=
  { id := index + 1
    name := row[0]?.getD ""
    department := row[1]?.getD ""
    subject := row[2]?.getD ""
    mobile := row[3]?.getD "" }

/-- `rows.map((row, index) => ...)` with the running index made explicit. -/
def rowsToFaculty : Nat → List (List String) → List FacultyRecord
  | _, [] => []
  | i, row :: rest => rowToFaculty i row :: rowsToFaculty (i + 1) rest

/-- The roster built by a successful repopulation: map each row to a record,
then drop records whose trimmed name is empty. -/
def facultyFromRows (rows : List (List String)) : List FacultyRecord :=
  (rowsToFaculty 0 rows).filter (fun faculty => jsTrim faculty.name != "")

/-- JS `[...new Set(l)]`: deduplicate keeping first occurrences, in order. -/
def jsSetAux (seen : List String) : List String → List String
  | [] => []
  | x :: xs => if x ∈ seen then jsSetAux seen xs else x :: jsSetAux (x :: seen) xs

/-- Deduplication with first-occurrence order, as JS Set insertion performs. -/
def jsSetList (l : List String) : List String := jsSetAux [] l

/-- `rows.map(row => row[0]).filter(name => name)`: the truthy first cells. -/
def truthyHeads (rows : List (List String)) : List String :=
  ((rows.map (fun row => row[0]?)).filter truthyCell).map (fun c => c.getD "")

/-- One fallback record wrapped around a review-derived name. -/
def nameToFaculty (index : Nat) (name : String) : FacultyRecord :=
  { id := index + 1
    name := name
    department := "Not specified"
    subject := "Not specified"
    mobile := "Not available" }

/-- `names.map((name, index) => ...)` for the fallback records. -/
def namesToFaculty : Nat → List String → List FacultyRecord
  | _, [] => []
  | i, n :: ns => nameToFaculty i n :: namesToFaculty (i + 1) ns

/-- `getFacultyFromReviews` (lines 80-101): derive a synthetic roster from
the review sheet's first column; an empty roster if that read fails too. -/
def getFacultyFromReviews (reviewsSheet : Except Unit (List (List String))) :
    List FacultyRecord :=
  match reviewsSheet with
  | .ok rows => namesToFaculty 0 (jsSetList (truthyHeads rows))
  | .error _ => []

/-- Result of one `getFacultyDataFromSheets` call: the returned roster, the
cache state it leaves behind, and how many remote reads it issued. -/
structure GetResult where
  data : List FacultyRecord
  cache : CacheState
  reads : Nat
deriving DecidableEq, Repr

/-- `getFacultyDataFromSheets` (lines 43-77): serve the cache if it holds
data younger than the freshness window; otherwise read the roster sheet,
populate the cache on success, and fall back to review-derived names on
failure (the fallback result is not written to the cache). -/
def getFacultyDataFromSheets (env : SheetsEnv) (now : Int) (c : CacheState) : GetResult :=
  if c.data.isSome ∧ now - c.timestamp < CACHE_DURATION then
    { data := c.data.getD [], cache := c, reads := 0 }
  else
    match env.facultySheet with
    | .ok rows =>
        let facultyData := facultyFromRows rows
        { data := facultyData
          cache := { data := some facultyData, timestamp := now }
          reads := 1 }
    | .error _ =>
        { data := getFacultyFromReviews env.reviewsSheet, cache := c, reads := 2 }

/-! ## Write endpoints (src/server.js lines 256-396 and 637-725) -/

/-- A value appended to the review sheet: a string, a `parseInt` result, or a
`parseFloat` result. -/
inductive SheetVal where
  | s (v : String)
  | i (v : Int)
  | q (v : ℚ)
deriving DecidableEq, Repr

/-- Request body of `POST /api/submit-review`, with the six rating fields
already carrying the finite numbers the JSON body supplied. -/
structure ReviewBody where
  name : String
  teaching : ℚ
  evaluation : ℚ
  behaviour : ℚ
  internals : ℚ
  classAverage : ℚ
  overall : ℚ
deriving DecidableEq, Repr

/-- Response of `POST /api/submit-review` plus its side effects: HTTP status,
error tag, the row appended to the review sheet (if any), and the cache
state after the request. -/
structure SubmitResult where
  status : Nat
  error : Option String
  appended : Option (List SheetVal)
  cache : CacheState
deriving DecidableEq, Repr

/-- The `reviewData` row built on a validated submission (lines 291-300). -/
def reviewRow (body : ReviewBody) (tstamp : String) : List SheetVal :=
  [ .s (jsTrim body.name)
  , .i (jsParseInt body.teaching)
  , .i (jsParseInt body.evaluation)
  , .i (jsParseInt body.behaviour)
  , .i (jsParseInt body.internals)
  , .q body.classAverage
  , .i (jsParseInt body.overall)
  , .s tstamp ]

/-- `POST /api/submit-review` (lines 256-341): reject a falsy name, reject
any of the five ratings outside 1..5 (classAverage is exempt), surface an
append failure as a 500, and on success append the row and reset the cache
timestamp to 0 without clearing the cached data. -/
def submitReview (body : ReviewBody) (appendOk : Bool) (tstamp : String)
    (c : CacheState) : SubmitResult :=
  if body.name = "" then
    { status := 400, error := some "Invalid input data", appended := none, cache := c }
  else if [body.teaching, body.evaluation, body.behaviour, body.internals,
      body.overall].any (fun rating => decide (rating < 1 ∨ 5 < rating)) then
    { status := 400, error := some "Invalid rating range", appended := none, cache := c }
  else if appendOk then
    { status := 200, error := none, appended := some (reviewRow body tstamp)
      cache := { data := c.data, timestamp := 0 } }
  else
    { status := 500, error := some "Failed to submit review", appended := none, cache := c }

/-- Response of `POST /api/add-faculty` plus its side effects. -/
structure AddFacultyResult where
  status : Nat
  error : Option String
  appended : Option (List String)
  cache : CacheState
deriving DecidableEq, Repr

/-- `POST /api/add-faculty` (lines 344-396): name and department must be
truthy; subject and mobile are optional and default to the empty string; on
success append the row and reset the cache timestamp to 0. -/
def addFaculty (name department : String) (subject mobile : Option String)
    (appendOk : Bool) (c : CacheState) : AddFacultyResult :=
  if name = "" ∨ department = "" then
    { status := 400, error := some "Name and department are required"
      appended := none, cache := c }
  else if appendOk then
    { status := 200, error := none
      appended := some [jsTrim name, jsTrim department,
        (subject.map jsTrim).getD "", (mobile.map jsTrim).getD ""]
      cache := { data := c.data, timestamp := 0 } }
  else
    { status := 500, error := some "Failed to add faculty member"
      appended := none, cache := c }

/-! ## Averages endpoint envelope (src/server.js lines 227-253) -/

/-- The JSON envelope of `GET /api/faculty-averages`. -/
structure AveragesEnvelope where
  success : Bool
  averages : Option FacultyAverages
deriving DecidableEq, Repr

/-- `GET /api/faculty-averages`: both the found and the not-found branches
respond with HTTP 200; only the `success` flag and the payload differ. -/
def facultyAveragesEndpoint (rows : List (List String)) (facultyName : String) :
    Nat × AveragesEnvelope :=
  match getFacultyAverages rows facultyName with
  | some a => (200, { success := true, averages := some a })
  | none => (200, { success := false, averages := none })

/-! ## Helper lemmas -/

/-- Folding JS addition from a plain number over entries that are all
non-NaN yields the plain sum. -/
theorem foldl_jsAdd {α : Type} (g : α → Option ℚ) (l : List α) (x : ℚ)
    (h : ∀ a ∈ l, (g a).isSome) :
    l.foldl (fun acc a => jsAdd acc (g a)) (some x) =
      some (x + (l.map (fun a => (g a).getD 0)).sum) := by
  induction l generalizing x with
  | nil => simp
  | cons b t ih =>
    obtain ⟨qb, hqb⟩ := Option.isSome_iff_exists.mp (h b (List.mem_cons_self b t))
    rw [List.foldl_cons, hqb]
    show t.foldl _ (jsAdd (some x) (some qb)) = _
    rw [show jsAdd (some x) (some qb) = some (x + qb) from rfl,
      ih (x + qb) (fun a ha => h a (List.mem_cons_of_mem _ ha))]
    rw [List.map_cons, List.sum_cons, hqb]
    simp [add_assoc]

/-- A JS-Set deduplication is a sublist of its input (it keeps order and
drops only repeats). -/
theorem jsSetAux_sublist : ∀ (l seen : List String), (jsSetAux seen l).Sublist l := by
  intro l
  induction l with
  | nil => intro seen; simp [jsSetAux]
  | cons x xs ih =>
    intro seen
    rw [jsSetAux]
    by_cases hx : x ∈ seen
    · rw [if_pos hx]; exact (ih seen).cons x
    · rw [if_neg hx]; exact (ih (x :: seen)).cons₂ x

/-- Membership in a JS-Set deduplication implies membership in the input and
absence from the already-seen accumulator. -/
theorem mem_jsSetAux {a : String} :
    ∀ (l seen : List String), a ∈ jsSetAux seen l → a ∈ l ∧ a ∉ seen := by
  intro l
  induction l with
  | nil => intro seen h; simp [jsSetAux] at h
  | cons x xs ih =>
    intro seen h
    rw [jsSetAux] at h
    by_cases hx : x ∈ seen
    · rw [if_pos hx] at h
      obtain ⟨h1, h2⟩ := ih seen h
      exact ⟨List.mem_cons_of_mem _ h1, h2⟩
    · rw [if_neg hx] at h
      rcases List.mem_cons.mp h with heq | htail
      · exact ⟨heq ▸ List.mem_cons_self x xs, heq ▸ hx⟩
      · obtain ⟨h1, h2⟩ := ih (x :: seen) htail
        exact ⟨List.mem_cons_of_mem _ h1, fun hs => h2 (List.mem_cons_of_mem _ hs)⟩

/-- A JS-Set deduplication has no duplicates. -/
theorem jsSetAux_nodup : ∀ (l seen : List String), (jsSetAux seen l).Nodup := by
  intro l
  induction l with
  | nil => intro seen; simp [jsSetAux]
  | cons x xs ih =>
    intro seen
    rw [jsSetAux]
    by_cases hx : x ∈ seen
    · rw [if_pos hx]; exact ih seen
    · rw [if_neg hx]
      refine List.nodup_cons.mpr ⟨fun hmem => ?_, ih (x :: seen)⟩
      exact (mem_jsSetAux xs (x :: seen) hmem).2 (List.mem_cons_self x seen)

/-- Every input element outside the accumulator survives JS-Set deduplication. -/
theorem mem_jsSetAux_of_mem {a : String} :
    ∀ (l seen : List String), a ∈ l → a ∉ seen → a ∈ jsSetAux seen l := by
  intro l
  induction l with
  | nil => intro seen h; simp at h
  | cons x xs ih =>
    intro seen hmem hseen
    rw [jsSetAux]
    by_cases hx : x ∈ seen
    · rw [if_pos hx]
      rcases List.mem_cons.mp hmem with heq | htail
      · exact absurd (heq ▸ hx) hseen
      · exact ih seen htail hseen
    · rw [if_neg hx]
      rcases List.mem_cons.mp hmem with heq | htail
      · exact heq ▸ List.mem_cons_self x _
      · by_cases hax : a = x
        · exact hax ▸ List.mem_cons_self x _
        · refine List.mem_cons_of_mem _ (ih (x :: seen) htail ?_)
          intro hcons
          rcases List.mem_cons.mp hcons with h1 | h2
          · exact hax h1
          · exact hseen h2

/-- Characterisation of jsSetList membership. -/
theorem mem_jsSetList_iff {a : String} (l : List String) :
    a ∈ jsSetList l ↔ a ∈ l := by
  constructor
  · intro h; exact (mem_jsSetAux l [] h).1
  · intro h; exact mem_jsSetAux_of_mem l [] h (List.not_mem_nil a)

/-- The ids assigned by the roster row mapping are consecutive from the
starting index plus one, in read order. -/
theorem rowsToFaculty_map_id :
    ∀ (rows : List (List String)) (i : Nat),
      (rowsToFaculty i rows).map FacultyRecord.id = List.range' (i + 1) rows.length := by
  intro rows
  induction rows with
  | nil => intro i; simp [rowsToFaculty]
  | cons r rs ih =>
    intro i
    rw [rowsToFaculty, List.map_cons, List.length_cons, List.range'_succ, ih (i + 1)]
    rfl

/-- Every record produced by the roster row mapping takes its name from its
source row's first cell. -/
theorem mem_rowsToFaculty :
    ∀ (rows : List (List String)) (i : Nat) (f : FacultyRecord),
      f ∈ rowsToFaculty i rows → ∃ row ∈ rows, f.name = row[0]?.getD "" := by
  intro rows
  induction rows with
  | nil => intro i f h; simp [rowsToFaculty] at h
  | cons r rs ih =>
    intro i f h
    rw [rowsToFaculty] at h
    rcases List.mem_cons.mp h with heq | htail
    · exact ⟨r, List.mem_cons_self r rs, heq ▸ rfl⟩
    · obtain ⟨row, hrow, hname⟩ := ih (i + 1) f htail
      exact ⟨row, List.mem_cons_of_mem _ hrow, hname⟩

/-- The fallback wrapping preserves the derived names, in order. -/
theorem namesToFaculty_map_name :
    ∀ (names : List String) (i : Nat),
      (namesToFaculty i names).map FacultyRecord.name = names := by
  intro names
  induction names with
  | nil => intro i; simp [namesToFaculty]
  | cons n ns ih => intro i; rw [namesToFaculty, List.map_cons, ih (i + 1)]; rfl

/-- Every fallback record carries the placeholder department, subject and
mobile fields. -/
theorem namesToFaculty_fields :
    ∀ (names : List String) (i : Nat) (f : FacultyRecord),
      f ∈ namesToFaculty i names →
        f.department = "Not specified" ∧ f.subject = "Not specified" ∧
          f.mobile = "Not available" := by
  intro names
  induction names with
  | nil => intro i f h; simp [namesToFaculty] at h
  | cons n ns ih =>
    intro i f h
    rw [namesToFaculty] at h
    rcases List.mem_cons.mp h with heq | htail
    · exact heq ▸ ⟨rfl, rfl, rfl⟩
    · exact ih (i + 1) f htail

/-! ## Claim C1 -/

/-- C1 (amended): for a faculty name with at least one matching review row,
getFacultyAverages returns the record of per-category calculateAverage
results; a category with zero entries passing the presence-and-numeric
filter averages to exactly 0 (never NaN or null); and whenever every entry
passing the filter is parsed by parseFloat to the same value as by the
Number coercion the filter uses, the category average is the arithmetic mean
of those values rounded to one decimal digit.  (The agreement hypothesis is
needed: a truthy, Number-coercible cell that parseFloat rejects — a
whitespace-only cell — makes the stored sum NaN, see the counterexample.) -/
theorem averages_mean_rounded (rows : List (List String)) (name : String) (idx : Nat)
    (hne : rows.filter (matchesV1 name) ≠ []) :
    getFacultyAverages rows name = some (averagesOf (rows.filter (matchesV1 name))) ∧
    ((rows.filter (matchesV1 name)).filter (fun r => validCell r[idx]?) = [] →
      calculateAverage (rows.filter (matchesV1 name)) idx = AvgOut.zero) ∧
    (∀ valid, valid = (rows.filter (matchesV1 name)).filter (fun r => validCell r[idx]?) →
      valid ≠ [] →
      (∀ r ∈ valid, jsParseFloat (r[idx]?.getD "") = jsToNumber (r[idx]?.getD "")) →
      calculateAverage (rows.filter (matchesV1 name)) idx =
        AvgOut.val (toFixed1
          ((valid.map (fun r => (jsToNumber (r[idx]?.getD "")).getD 0)).sum /
            (valid.length : ℚ)))) := by
  refine ⟨?_, ?_, ?_⟩
  · simp only [getFacultyAverages]
    rw [if_neg (fun h => hne (List.length_eq_zero.mp h))]
  · intro hempty
    simp only [calculateAverage]
    rw [hempty]
    rfl
  · intro valid hvalid hvne hagree
    simp only [calculateAverage]
    rw [← hvalid]
    rw [if_neg (fun h => hvne (List.length_eq_zero.mp h))]
    have hsome : ∀ r ∈ valid, (jsParseFloat (r[idx]?.getD "")).isSome := by
      intro r hr
      rw [hagree r hr]
      have hmem := (List.mem_filter.mp (hvalid ▸ hr)).2
      simp only [validCell, Bool.and_eq_true] at hmem
      exact hmem.2
    rw [foldl_jsAdd (fun r => jsParseFloat (r[idx]?.getD "")) valid 0 hsome]
    rw [zero_add,
      List.map_congr_left (fun r hr => by rw [hagree r hr] :
        ∀ r ∈ valid, (jsParseFloat (r[idx]?.getD "")).getD 0 =
          (jsToNumber (r[idx]?.getD "")).getD 0)]

/-- C1 witness: two reviews for Ann with teaching entries 4 and 5 average to
4.5, through the main theorem. -/
theorem averages_mean_rounded_witness :
    calculateAverage [["Ann", "4"], ["Ann", "5"]] 1 = AvgOut.val (9 / 2) := by
  have hfilter : [["Ann", "4"], ["Ann", "5"]].filter (matchesV1 "Ann") =
      [["Ann", "4"], ["Ann", "5"]] := by decide
  have h := (averages_mean_rounded [["Ann", "4"], ["Ann", "5"]] "Ann" 1
      (by decide)).2.2 [["Ann", "4"], ["Ann", "5"]]
      (by decide) (by decide) (by intro r hr; fin_cases hr <;> rfl)
  rw [hfilter] at h
  rw [h]
  have h4 : jsToNumber "4" = some ((4 : ℕ) : ℚ) := rfl
  have h5 : jsToNumber "5" = some ((5 : ℕ) : ℚ) := rfl
  norm_num [toFixed1, round_eq, h4, h5]

/-- C1 counterexample: a review row for Ann whose teaching cell is a single
space.  The cell is truthy and Number-coercible (so it passes the filter and
the category has one counted entry), but parseFloat maps it to NaN, so the
returned teaching average is the string NaN — neither a rounded mean nor 0,
contradicting the claim as stated. -/
theorem averages_mean_counterexample :
    getFacultyAverages [["Ann", " "]] "Ann" =
      some { teaching := AvgOut.nan, evaluation := AvgOut.zero, behaviour := AvgOut.zero,
             internals := AvgOut.zero, classAverage := AvgOut.zero, overall := AvgOut.zero,
             count := 1, latestReview := ["Ann", " "] } ∧
    AvgOut.nan ≠ AvgOut.zero := by
  exact ⟨by decide, by decide⟩

/-! ## Claim C2 -/

/-- C2 (amended): the later searchFaculty variant returns exactly the records
whose lower-cased name, department or subject contains the trimmed
lower-cased term as a substring, preserving input order (it is the filter of
the spec predicate, hence a sublist), and it is a pure function of its
arguments.  The earlier variant differs: it filters by the untrimmed
lower-cased term. -/
theorem search_characterisation :
    (∀ (R : List FacultyRecord) (t : String),
        searchFacultyV2 R t = R.filter (specSearchMatches t)) ∧
    (∀ (R : List FacultyRecord) (t : String) (f : FacultyRecord),
        f ∈ searchFacultyV2 R t ↔ f ∈ R ∧ specSearchMatches t f = true) ∧
    (∀ (R : List FacultyRecord) (t : String), (searchFacultyV2 R t).Sublist R) ∧
    (∀ (R : List FacultyRecord) (t : String),
        searchFaculty R t = R.filter (fun f =>
          jsIncludes (jsToLower f.name) (jsToLower t) ||
          jsIncludes (jsToLower f.department) (jsToLower t) ||
          jsIncludes (jsToLower f.subject) (jsToLower t))) := by
  refine ⟨fun R t => rfl, ?_, ?_, fun R t => rfl⟩
  · intro R t f
    rw [show searchFacultyV2 R t = R.filter (specSearchMatches t) from rfl]
    exact List.mem_filter
  · intro R t
    rw [show searchFacultyV2 R t = R.filter (specSearchMatches t) from rfl]
    exact List.filter_sublist R

/-- C2 counterexample: with the roster containing one record named a and the
search term being a space followed by a, the trimmed term matches the record
(as the claim demands), but the earlier searchFaculty variant returns the
empty list because it does not trim; the later variant returns the record. -/
theorem search_counterexample :
    searchFaculty [⟨1, "a", "", "", ""⟩] " a" = [] ∧
    specSearchMatches " a" ⟨1, "a", "", "", ""⟩ = true ∧
    searchFacultyV2 [⟨1, "a", "", "", ""⟩] " a" = [⟨1, "a", "", "", ""⟩] := by
  exact ⟨by decide, by decide, by decide⟩

/-! ## Claim C7 -/

/-- C7 (amended): when no review row matches the requested name,
getFacultyAverages returns none (absent, not an error), and the
faculty-averages endpoint responds with HTTP 200 — not a 404 — carrying an
envelope with null averages; the envelope's success flag, however, is false,
not true. -/
theorem no_match_absent (rows : List (List String)) (name : String)
    (h : rows.filter (matchesV1 name) = []) :
    getFacultyAverages rows name = none ∧
    facultyAveragesEndpoint rows name =
      (200, { success := false, averages := none }) := by
  have h1 : getFacultyAverages rows name = none := by
    simp only [getFacultyAverages]
    rw [h]
    rfl
  exact ⟨h1, by simp only [facultyAveragesEndpoint, h1]⟩

/-- C7 witness: one review row for Bob, averages requested for Ann. -/
theorem no_match_absent_witness :
    getFacultyAverages [["Bob", "4"]] "Ann" = none ∧
    facultyAveragesEndpoint [["Bob", "4"]] "Ann" =
      (200, { success := false, averages := none }) :=
  no_match_absent [["Bob", "4"]] "Ann" (by decide)

/-- C7 counterexample: the zero-match response is HTTP 200 with null
averages, but its envelope carries success set to false, so it is not a
success envelope as the claim states. -/
theorem no_match_counterexample :
    facultyAveragesEndpoint [["Bob", "4"]] "Zoe" =
      (200, { success := false, averages := none }) ∧
    (facultyAveragesEndpoint [["Bob", "4"]] "Zoe").2.success ≠ true := by
  exact ⟨by decide, by decide⟩

/-! ## Claim C9 -/

/-- C9: the earlier getFacultyAverages variant selects review rows by
case-insensitive substring containment of the query inside the stored name,
the later by exact case-insensitive trimmed equality, and the two disagree:
for the single row named Dr. Rao Kumar and query Rao, the earlier variant
selects the row and returns averages while the later selects nothing. -/
theorem matching_policies_differ :
    (∀ (rows : List (List String)) (q : String),
        rows.filter (matchesV1 q) = rows.filter (specSubstringMatch q)) ∧
    (∀ (rows : List (List String)) (q : String),
        rows.filter (matchesV2 q) = rows.filter (specExactMatch q)) ∧
    [["Dr. Rao Kumar", "4"]].filter (matchesV1 "Rao") = [["Dr. Rao Kumar", "4"]] ∧
    [["Dr. Rao Kumar", "4"]].filter (matchesV2 "Rao") = [] ∧
    getFacultyAverages [["Dr. Rao Kumar", "4"]] "Rao" ≠
      getFacultyAveragesV2 [["Dr. Rao Kumar", "4"]] "Rao" := by
  refine ⟨?_, ?_, by decide, by decide, by decide⟩
  · intro rows q
    apply List.filter_congr
    intro row _
    simp only [matchesV1, specSubstringMatch]
    cases row[0]? with
    | none => rfl
    | some s => rfl
  · intro rows q
    apply List.filter_congr
    intro row _
    simp only [matchesV2, specExactMatch]
    cases row[0]? with
    | none => rfl
    | some s => rfl

/-! ## Claim C3 -/

/-- C3 (amended): if a get() call leaves the cache holding exactly the data
it returned (true on a cache hit and after a successful roster read; false
only for the uncached fallback path), then a second get() at any time within
the freshness window of the cache's population timestamp returns the
identical roster, leaves the cache untouched, and issues zero remote reads.
The window is measured from the cache population time, not from the first
call — the claim as stated fails, see the counterexample. -/
theorem cache_hit_idempotent (env : SheetsEnv) (t1 t2 : Int) (c : CacheState)
    (hdata : (getFacultyDataFromSheets env t1 c).cache.data =
      some (getFacultyDataFromSheets env t1 c).data)
    (hfresh : t2 - (getFacultyDataFromSheets env t1 c).cache.timestamp < CACHE_DURATION) :
    getFacultyDataFromSheets env t2 (getFacultyDataFromSheets env t1 c).cache =
      { data := (getFacultyDataFromSheets env t1 c).data,
        cache := (getFacultyDataFromSheets env t1 c).cache, reads := 0 } := by
  rw [show getFacultyDataFromSheets env t2 (getFacultyDataFromSheets env t1 c).cache =
      if (getFacultyDataFromSheets env t1 c).cache.data.isSome ∧
          t2 - (getFacultyDataFromSheets env t1 c).cache.timestamp < CACHE_DURATION then
        { data := (getFacultyDataFromSheets env t1 c).cache.data.getD []
          cache := (getFacultyDataFromSheets env t1 c).cache, reads := 0 }
      else _ from rfl]
  rw [if_pos ⟨by rw [hdata]; rfl, hfresh⟩, hdata]
  rfl

/-- C3 witness: a cache populated at time 0 and read again at times 1 and 2. -/
theorem cache_hit_idempotent_witness :
    getFacultyDataFromSheets ⟨.ok [], .ok []⟩ 2
        (getFacultyDataFromSheets ⟨.ok [], .ok []⟩ 1
          ⟨some [nameToFaculty 0 "Ann"], 0⟩).cache =
      { data := [nameToFaculty 0 "Ann"]
        cache := { data := some [nameToFaculty 0 "Ann"], timestamp := 0 }, reads := 0 } := by
  rw [cache_hit_idempotent ⟨.ok [], .ok []⟩ 1 2 ⟨some [nameToFaculty 0 "Ann"], 0⟩
    (by decide) (by decide)]
  decide

/-- C3 counterexample: the cache was populated at time 0; two get() calls at
times 299999 and 300000 sit 1 millisecond apart — well within the 5-minute
window of each other, with no intervening write — yet the second call issues
a remote read (the window counts from population, not from the first call)
and returns a different roster. -/
theorem cache_window_counterexample :
    (getFacultyDataFromSheets ⟨.ok [], .ok []⟩ 299999
      ⟨some [nameToFaculty 0 "Ann"], 0⟩).reads = 0 ∧
    (getFacultyDataFromSheets ⟨.ok [], .ok []⟩ 299999
      ⟨some [nameToFaculty 0 "Ann"], 0⟩).data = [nameToFaculty 0 "Ann"] ∧
    (300000 : Int) - 299999 < CACHE_DURATION ∧
    (getFacultyDataFromSheets ⟨.ok [], .ok []⟩ 300000
      (getFacultyDataFromSheets ⟨.ok [], .ok []⟩ 299999
        ⟨some [nameToFaculty 0 "Ann"], 0⟩).cache).reads = 1 ∧
    (getFacultyDataFromSheets ⟨.ok [], .ok []⟩ 300000
      (getFacultyDataFromSheets ⟨.ok [], .ok []⟩ 299999
        ⟨some [nameToFaculty 0 "Ann"], 0⟩).cache).data = [] := by
  exact ⟨by decide, by decide, by decide, by decide, by decide⟩

/-! ## Claim C4 -/

/-- Any cache whose timestamp was reset to 0 misses on a clock reading at
least one freshness window past the epoch, so the next get() issues at
least one remote read. -/
theorem miss_after_reset (env : SheetsEnv) (now : Int) (c : CacheState)
    (hts : c.timestamp = 0) (hnow : CACHE_DURATION ≤ now) :
    0 < (getFacultyDataFromSheets env now c).reads := by
  simp only [getFacultyDataFromSheets]
  rw [if_neg]
  · cases henv : env.facultySheet with
    | ok rows => simp
    | error e => simp
  · rintro ⟨-, hlt⟩
    rw [hts, sub_zero] at hlt
    exact absurd hlt (not_lt.mpr hnow)

/-- C4: a successful write — submit-review or add-faculty — resets the cache
timestamp to 0 while keeping the stale cached data, and therefore the next
get() (at any clock reading at least one freshness window past the epoch,
which every real Date.now() is) misses the cache and issues a remote read. -/
theorem write_invalidates_cache :
    (∀ (body : ReviewBody) (ok : Bool) (ts : String) (c : CacheState),
        (submitReview body ok ts c).status = 200 →
        (submitReview body ok ts c).cache.timestamp = 0 ∧
        (submitReview body ok ts c).cache.data = c.data ∧
        ∀ (env : SheetsEnv) (now : Int), CACHE_DURATION ≤ now →
          0 < (getFacultyDataFromSheets env now (submitReview body ok ts c).cache).reads) ∧
    (∀ (name department : String) (subject mobile : Option String) (ok : Bool)
        (c : CacheState),
        (addFaculty name department subject mobile ok c).status = 200 →
        (addFaculty name department subject mobile ok c).cache.timestamp = 0 ∧
        (addFaculty name department subject mobile ok c).cache.data = c.data ∧
        ∀ (env : SheetsEnv) (now : Int), CACHE_DURATION ≤ now →
          0 < (getFacultyDataFromSheets env now
            (addFaculty name department subject mobile ok c).cache).reads) := by
  constructor
  · intro body ok ts c h
    unfold submitReview at h ⊢
    split_ifs at h ⊢ with h1 h2 h3
    · simp at h
    · simp at h
    · exact ⟨rfl, rfl, fun env now hnow => miss_after_reset env now _ rfl hnow⟩
    · simp at h
  · intro name department subject mobile ok c h
    unfold addFaculty at h ⊢
    split_ifs at h ⊢ with h1 h2
    · simp at h
    · exact ⟨rfl, rfl, fun env now hnow => miss_after_reset env now _ rfl hnow⟩
    · simp at h

/-- C4 witness: a concrete successful submission against a warm cache, then
a get() at the five-minute mark issues a read. -/
theorem write_invalidates_cache_witness :
    (submitReview ⟨"Ann", 4, 4, 4, 4, 4, 4⟩ true "ts" ⟨some [], 12345⟩).status = 200 ∧
    (submitReview ⟨"Ann", 4, 4, 4, 4, 4, 4⟩ true "ts" ⟨some [], 12345⟩).cache.timestamp = 0 ∧
    (submitReview ⟨"Ann", 4, 4, 4, 4, 4, 4⟩ true "ts" ⟨some [], 12345⟩).cache.data = some [] ∧
    0 < (getFacultyDataFromSheets ⟨.ok [], .ok []⟩ 300000
      (submitReview ⟨"Ann", 4, 4, 4, 4, 4, 4⟩ true "ts" ⟨some [], 12345⟩).cache).reads := by
  have hs : (submitReview ⟨"Ann", 4, 4, 4, 4, 4, 4⟩ true "ts" ⟨some [], 12345⟩).status = 200 := by
    decide
  have h := write_invalidates_cache.1 ⟨"Ann", 4, 4, 4, 4, 4, 4⟩ true "ts" ⟨some [], 12345⟩ hs
  exact ⟨hs, h.1, h.2.1, h.2.2 ⟨.ok [], .ok []⟩ 300000 (by decide)⟩

/-! ## Claim C5 -/

/-- C5: on a cache miss whose roster read fails, get() returns the synthetic
roster derived from the review sheet's first column: the truthy names
deduplicated preserving first-occurrence order (a duplicate-free sublist of
the name sequence containing every truthy name), each wrapped with the
placeholder department, subject and mobile; if the review read also fails,
get() returns the empty roster.  Both branches return normally (the
embedding is total) and leave the cache unchanged. -/
theorem fallback_roster (env : SheetsEnv) (now : Int) (c : CacheState)
    (hmiss : ¬(c.data.isSome ∧ now - c.timestamp < CACHE_DURATION))
    (hfail : env.facultySheet = .error ()) :
    (∀ rows, env.reviewsSheet = .ok rows →
        (getFacultyDataFromSheets env now c).data =
          namesToFaculty 0 (jsSetList (truthyHeads rows)) ∧
        ((getFacultyDataFromSheets env now c).data.map FacultyRecord.name).Nodup ∧
        ((getFacultyDataFromSheets env now c).data.map FacultyRecord.name).Sublist
          (truthyHeads rows) ∧
        (∀ n, n ∈ truthyHeads rows ↔
          n ∈ (getFacultyDataFromSheets env now c).data.map FacultyRecord.name) ∧
        (∀ f ∈ (getFacultyDataFromSheets env now c).data,
          f.department = "Not specified" ∧ f.subject = "Not specified" ∧
            f.mobile = "Not available") ∧
        (getFacultyDataFromSheets env now c).cache = c) ∧
    (env.reviewsSheet = .error () →
      getFacultyDataFromSheets env now c = { data := [], cache := c, reads := 2 }) := by
  have hget : getFacultyDataFromSheets env now c =
      { data := getFacultyFromReviews env.reviewsSheet, cache := c, reads := 2 } := by
    simp only [getFacultyDataFromSheets]
    rw [if_neg hmiss, hfail]
  constructor
  · intro rows hrows
    have hdata : (getFacultyDataFromSheets env now c).data =
        namesToFaculty 0 (jsSetList (truthyHeads rows)) := by
      simp only [hget, hrows, getFacultyFromReviews]
    have hcache : (getFacultyDataFromSheets env now c).cache = c := by
      simp only [hget]
    rw [hdata, hcache]
    refine ⟨rfl, ?_, ?_, ?_, ?_, rfl⟩
    · rw [namesToFaculty_map_name]
      exact jsSetAux_nodup (truthyHeads rows) []
    · rw [namesToFaculty_map_name]
      exact jsSetAux_sublist (truthyHeads rows) []
    · intro n
      rw [namesToFaculty_map_name]
      exact (mem_jsSetList_iff (truthyHeads rows)).symm
    · intro f hf
      exact namesToFaculty_fields (jsSetList (truthyHeads rows)) 0 f hf
  · intro hrev
    simp only [hget, hrev, getFacultyFromReviews]

/-- C5 witness: the spec's scenario — roster source unreachable, review rows
for Dr. Rao, Dr. Rao, Dr. Singh — yields exactly two placeholder records in
first-occurrence order. -/
theorem fallback_roster_witness :
    (getFacultyDataFromSheets
        ⟨.error (), .ok [["Dr. Rao", "5"], ["Dr. Rao"], ["Dr. Singh"]]⟩ 0 ⟨none, 0⟩).data =
      [⟨1, "Dr. Rao", "Not specified", "Not specified", "Not available"⟩,
       ⟨2, "Dr. Singh", "Not specified", "Not specified", "Not available"⟩] := by
  have h := (fallback_roster ⟨.error (), .ok [["Dr. Rao", "5"], ["Dr. Rao"], ["Dr. Singh"]]⟩
      0 ⟨none, 0⟩ (by decide) rfl).1 [["Dr. Rao", "5"], ["Dr. Rao"], ["Dr. Singh"]] rfl
  rw [h.1]
  decide

/-! ## Claim C6 -/

/-- C6: a submit-review whose five range-checked ratings include one outside
1..5 is rejected with HTTP 400 and one of the two validation errors; no row
is appended and the cache — timestamp included — is exactly what it was. -/
theorem out_of_range_rejected (body : ReviewBody) (ok : Bool) (ts : String) (c : CacheState)
    (h : ∃ r ∈ [body.teaching, body.evaluation, body.behaviour, body.internals,
      body.overall], r < 1 ∨ 5 < r) :
    (submitReview body ok ts c).status = 400 ∧
    (submitReview body ok ts c).appended = none ∧
    (submitReview body ok ts c).cache = c ∧
    ((submitReview body ok ts c).error = some "Invalid input data" ∨
      (submitReview body ok ts c).error = some "Invalid rating range") := by
  unfold submitReview
  split_ifs with h1 h2 h3
  · exact ⟨rfl, rfl, rfl, Or.inl rfl⟩
  · exact ⟨rfl, rfl, rfl, Or.inr rfl⟩
  all_goals
    exfalso
    obtain ⟨r, hr, hout⟩ := h
    exact h2 (List.any_eq_true.mpr ⟨r, hr, decide_eq_true hout⟩)

/-- C6 witness: teaching equal to 6 is rejected, appends nothing, and leaves
the cache timestamp at its old value 77. -/
theorem out_of_range_rejected_witness :
    (submitReview ⟨"Dr. Rao", 6, 4, 4, 4, 4, 4⟩ true "ts" ⟨none, 77⟩).status = 400 ∧
    (submitReview ⟨"Dr. Rao", 6, 4, 4, 4, 4, 4⟩ true "ts" ⟨none, 77⟩).appended = none ∧
    (submitReview ⟨"Dr. Rao", 6, 4, 4, 4, 4, 4⟩ true "ts" ⟨none, 77⟩).cache = ⟨none, 77⟩ ∧
    ((submitReview ⟨"Dr. Rao", 6, 4, 4, 4, 4, 4⟩ true "ts" ⟨none, 77⟩).error =
        some "Invalid input data" ∨
      (submitReview ⟨"Dr. Rao", 6, 4, 4, 4, 4, 4⟩ true "ts" ⟨none, 77⟩).error =
        some "Invalid rating range") :=
  out_of_range_rejected ⟨"Dr. Rao", 6, 4, 4, 4, 4, 4⟩ true "ts" ⟨none, 77⟩ (by decide)

/-! ## Claim C8 -/

/-- C8 (amended): every record surviving a successful repopulation has a
non-empty trimmed name; the returned ids are strictly increasing, each id
being its source row's 1-based read position (assigned before the empty-name
filter), so the ids form the exact sequence 1..n precisely when no read row
was dropped — gaps appear otherwise, see the counterexample; and a
cache-missing get() whose roster read succeeds returns exactly this roster. -/
theorem repopulated_ids (rows : List (List String)) :
    (∀ f ∈ facultyFromRows rows, jsTrim f.name ≠ "") ∧
    ((facultyFromRows rows).map FacultyRecord.id).Pairwise (· < ·) ∧
    ((∀ row ∈ rows, jsTrim (row[0]?.getD "") ≠ "") →
      (facultyFromRows rows).map FacultyRecord.id = List.range' 1 rows.length) ∧
    (∀ (env : SheetsEnv) (now : Int) (c : CacheState),
      ¬(c.data.isSome ∧ now - c.timestamp < CACHE_DURATION) →
      env.facultySheet = .ok rows →
      (getFacultyDataFromSheets env now c).data = facultyFromRows rows) := by
  refine ⟨?_, ?_, ?_, ?_⟩
  · intro f hf
    exact bne_iff_ne.mp (List.mem_filter.mp hf).2
  · have hsub : ((facultyFromRows rows).map FacultyRecord.id).Sublist
        ((rowsToFaculty 0 rows).map FacultyRecord.id) :=
      (List.filter_sublist (rowsToFaculty 0 rows)).map FacultyRecord.id
    rw [rowsToFaculty_map_id rows 0] at hsub
    exact List.Pairwise.sublist hsub (List.pairwise_lt_range' 1 rows.length)
  · intro hall
    have hkeep : facultyFromRows rows = rowsToFaculty 0 rows := by
      apply List.filter_eq_self.mpr
      intro f hf
      obtain ⟨row, hrow, hname⟩ := mem_rowsToFaculty rows 0 f hf
      exact bne_iff_ne.mpr (hname ▸ hall row hrow)
    rw [hkeep, rowsToFaculty_map_id rows 0]
  · intro env now c hmiss hok
    simp only [getFacultyDataFromSheets]
    rw [if_neg hmiss, hok]

/-- C8 witness: with no empty-name rows, the ids are exactly 1, 2, and the
get() that repopulates returns them. -/
theorem repopulated_ids_witness :
    (facultyFromRows [["Alice", "CSE", "DS", "123"], ["Bob"]]).map FacultyRecord.id =
      List.range' 1 2 ∧
    (getFacultyDataFromSheets ⟨.ok [["Alice", "CSE", "DS", "123"], ["Bob"]], .ok []⟩ 0
      ⟨none, 0⟩).data = facultyFromRows [["Alice", "CSE", "DS", "123"], ["Bob"]] := by
  have h := repopulated_ids [["Alice", "CSE", "DS", "123"], ["Bob"]]
  exact ⟨h.2.2.1 (by decide),
    h.2.2.2 ⟨.ok [["Alice", "CSE", "DS", "123"], ["Bob"]], .ok []⟩ 0 ⟨none, 0⟩
      (by decide) rfl⟩

/-- C8 counterexample: a middle row whose name is a single space is dropped
after id assignment, so the two returned records carry ids 1 and 3 — not the
sequence 1, 2 the claim states. -/
theorem repopulated_ids_counterexample :
    (facultyFromRows [["Alice", "CSE", "DS", "123"], [" "], ["Bob"]]).map FacultyRecord.id =
      [1, 3] ∧
    (facultyFromRows [["Alice", "CSE", "DS", "123"], [" "], ["Bob"]]).length = 2 ∧
    (facultyFromRows [["Alice", "CSE", "DS", "123"], [" "], ["Bob"]]).map FacultyRecord.id ≠
      List.range' 1 (facultyFromRows [["Alice", "CSE", "DS", "123"], [" "], ["Bob"]]).length := by
  exact ⟨by decide, by decide, by decide⟩

/-! ## Claim C10 -/

/-- C10: a validated submit-review appends exactly one row holding the
trimmed name, the five ratings teaching, evaluation, behaviour, internals
and overall as parseInt truncations, classAverage as its parseFloat value
with the fractional part preserved, and the timestamp string — and answers
200 with the cache timestamp reset to 0. -/
theorem ratings_truncated (body : ReviewBody) (ts : String) (c : CacheState)
    (hname : body.name ≠ "")
    (hrange : ∀ r ∈ [body.teaching, body.evaluation, body.behaviour, body.internals,
      body.overall], 1 ≤ r ∧ r ≤ 5) :
    submitReview body true ts c =
      { status := 200, error := none
        appended := some
          [ .s (jsTrim body.name), .i (jsParseInt body.teaching),
            .i (jsParseInt body.evaluation), .i (jsParseInt body.behaviour),
            .i (jsParseInt body.internals), .q body.classAverage,
            .i (jsParseInt body.overall), .s ts ]
        cache := { data := c.data, timestamp := 0 } } := by
  have hany : ¬([body.teaching, body.evaluation, body.behaviour, body.internals,
      body.overall].any (fun rating => decide (rating < 1 ∨ 5 < rating)) = true) := by
    rw [List.any_eq_true]
    rintro ⟨r, hr, hdec⟩
    obtain ⟨hlo, hhi⟩ := hrange r hr
    rcases of_decide_eq_true hdec with hlt | hgt
    · exact absurd hlo (not_le.mpr hlt)
    · exact absurd hhi (not_le.mpr hgt)
  unfold submitReview
  rw [if_neg hname, if_neg hany, if_pos rfl]
  rfl

/-- C10 witness: a validated teaching rating of 4.7 is stored as the integer
4, while a classAverage of 3.7 is stored with its fraction intact. -/
theorem ratings_truncated_witness :
    (submitReview ⟨"Dr. X", 47 / 10, 4, 4, 4, 37 / 10, 4⟩ true "ts" ⟨none, 9⟩).appended =
      some [ .s "Dr. X", .i 4, .i 4, .i 4, .i 4, .q (37 / 10), .i 4, .s "ts" ] ∧
    jsParseInt (47 / 10) = 4 := by
  have h47 : jsParseInt (47 / 10) = 4 := by
    rw [jsParseInt]
    norm_num
  have h4 : jsParseInt (4 : ℚ) = 4 := by
    rw [jsParseInt]
    norm_num
  have h := ratings_truncated ⟨"Dr. X", 47 / 10, 4, 4, 4, 37 / 10, 4⟩ "ts" ⟨none, 9⟩
    (by decide) (by intro r hr; fin_cases hr <;> constructor <;> norm_num)
  rw [h]
  have htrim : jsTrim "Dr. X" = "Dr. X" := by decide
  have hteach : (⟨"Dr. X", 47 / 10, 4, 4, 4, 37 / 10, 4⟩ : ReviewBody).teaching = 47 / 10 := rfl
  exact ⟨by simp only [htrim, h47, h4], h47⟩

end ReviewSite
